import Mathlib

/-!
Shallow embedding of the book-catalog backend (`src/backend/main.py`).

Conventions of the embedding:
* Python `str` values are Lean `String`s; `str.strip()` is `pyStrip`,
  `str.lower()` is `pyLower` (both defined over the character list so that
  they are easy to reason about and to evaluate in the kernel).
* Python dicts keyed by strings are association lists `List (String × α)`
  that keep insertion order, exactly like Python dicts; `assocFind?`,
  `assocSet`, `assocErase` model `d[k]`, `d[k] = v`, `del d[k]`.
* Numeric CSV fields are typed: the two float fields become `Rat`, the two
  int fields become `Int`.  Python `str()` of a typed numeric value is
  modeled by a canonical injective representation (`ratRepr` / `intRepr`),
  so string comparison of two equally typed values coincides with value
  comparison, as in the source where all stored values went through
  `parse_book_row`.
* `float(...)` / `int(...)` inside `try/except` become `pyFloat?` /
  `pyInt?` returning `Option`; the silent default-to-zero policy is
  `pyFloatD` / `pyIntD`.
* `math.log` is `Real.log`; everything touching it is kept in separate
  definitions so that the rest of the pipeline stays executable.
-/

namespace BookRec

/-! ## String helpers (Python `strip` / `lower`) -/

/-- Characters removed by Python `str.strip()`. -/
def isWS (c : Char) : Bool := c.isWhitespace

/-- Strip whitespace from both ends of a character list. -/
def stripChars (cs : List Char) : List Char :=
  ((cs.dropWhile isWS).reverse.dropWhile isWS).reverse

/-- Model of Python `str.strip()`. -/
def pyStrip (s : String) : String := String.mk (stripChars s.data)

/-- Model of Python `str.lower()`. -/
def pyLower (s : String) : String := String.mk (s.data.map Char.toLower)

/-- Source `normalize`: strip whitespace, lowercase (main.py line 208). -/
def normalize (s : String) : String := pyLower (pyStrip s)

/-! ## Numeric parsing and printing (Python `int`, `float`, `str`) -/

/-- Numeric value of a decimal digit character. -/
def digitVal (c : Char) : Nat := c.toNat - 48

/-- Value of a big-endian digit character list. -/
def digitsVal (cs : List Char) : Nat := cs.foldl (fun a c => 10 * a + digitVal c) 0

/-- Parse a nonempty all-digit character list. -/
def pyNat? (cs : List Char) : Option Nat :=
  if cs ≠ [] ∧ cs.all Char.isDigit then some (digitsVal cs) else none

/-- Parse an optionally signed digit string. -/
def pyIntChars? (cs : List Char) : Option Int :=
  match cs with
  | [] => none
  | c :: rest =>
    if c = '-' then (pyNat? rest).map (fun n => -(n : Int))
    else if c = '+' then (pyNat? rest).map (fun n => (n : Int))
    else (pyNat? cs).map (fun n => (n : Int))

/-- Model of Python `int(s)` on a string: `none` when a `ValueError` would be raised. -/
def pyInt? (s : String) : Option Int := pyIntChars? (pyStrip s).data

/-- Mantissa of a float literal: digits with at most one dot. -/
def pyMantissa? (cs : List Char) : Option Rat :=
  let ip := cs.takeWhile (fun c => c ≠ '.')
  let rest := cs.dropWhile (fun c => c ≠ '.')
  match rest with
  | [] => (pyNat? cs).map (fun n => (n : Rat))
  | _ :: fp =>
    if (ip.all Char.isDigit ∧ fp.all Char.isDigit) ∧ (ip ≠ [] ∨ fp ≠ []) then
      some ((digitsVal ip : Rat) + (digitsVal fp : Rat) / ((10 : Rat) ^ fp.length))
    else none

/-- Exponent part of a float literal. -/
def pyExpChars? (cs : List Char) : Option Int := pyIntChars? cs

/-- Unsigned body of a float literal: mantissa with optional exponent. -/
def pyFloatBody? (cs : List Char) : Option Rat :=
  let m := cs.takeWhile (fun c => c ≠ 'e' ∧ c ≠ 'E')
  let r := cs.dropWhile (fun c => c ≠ 'e' ∧ c ≠ 'E')
  match r with
  | [] => pyMantissa? m
  | _ :: ex => do
    let mv ← pyMantissa? m
    let e ← pyExpChars? ex
    pure (mv * (10 : Rat) ^ e)

/-- Model of Python `float(s)` on a string: `none` when a `ValueError` would be raised. -/
def pyFloat? (s : String) : Option Rat :=
  match (pyStrip s).data with
  | [] => none
  | c :: rest =>
    if c = '-' then (pyFloatBody? rest).map (fun x => -x)
    else if c = '+' then pyFloatBody? rest
    else pyFloatBody? (c :: rest)

/-- Silent-default float parse used by `parse_book_row`:
`float(x) if x else 0.0` wrapped in `try/except`. -/
def pyFloatD (s : String) : Rat :=
  if s = "" then 0 else match pyFloat? s with | some v => v | none => 0

/-- Silent-default int parse used by `parse_book_row`:
`int(x) if x else 0` wrapped in `try/except`. -/
def pyIntD (s : String) : Int :=
  if s = "" then 0 else match pyInt? s with | some v => v | none => 0

/-- Decimal printing with explicit fuel, structurally recursive so the
kernel can evaluate it.  Big-endian digit characters of `n` (empty for 0). -/
def natReprAux : Nat → Nat → List Char
  | 0, _ => []
  | fuel + 1, n => if n = 0 then [] else natReprAux fuel (n / 10) ++ [Nat.digitChar (n % 10)]

/-- Model of Python `str(n)` for a natural number. -/
def natRepr (n : Nat) : String :=
  if n = 0 then "0" else String.mk (natReprAux n n)

/-- Model of Python `str(i)` for an integer. -/
def intRepr (i : Int) : String :=
  if i < 0 then "-" ++ natRepr i.natAbs else natRepr i.toNat

/-- Canonical injective string representation of a rational, standing in for
Python `str()` of a stored float value (only equality of representations is
ever used by the source). -/
def ratRepr (q : Rat) : String :=
  intRepr q.num ++ (if q.den = 1 then "" else "/" ++ natRepr q.den)

/-! ## Association lists (Python dict with insertion order) -/

/-- Python `d.get(k)` / `d[k]`. -/
def assocFind? {α : Type} : List (String × α) → String → Option α
  | [], _ => none
  | (k2, v) :: rest, k => if k2 = k then some v else assocFind? rest k

/-- Python `k in d`. -/
def assocMem {α : Type} (l : List (String × α)) (k : String) : Bool :=
  (assocFind? l k).isSome

/-- Python `d[k] = v`: replace in place if the key exists, else append. -/
def assocSet {α : Type} : List (String × α) → String → α → List (String × α)
  | [], k, v => [(k, v)]
  | (k2, w) :: rest, k, v =>
    if k2 = k then (k2, v) :: rest else (k2, w) :: assocSet rest k v

/-- Python `del d[k]` (keys are unique, remove the first occurrence). -/
def assocErase {α : Type} : List (String × α) → String → List (String × α)
  | [], _ => []
  | (k2, w) :: rest, k => if k2 = k then rest else (k2, w) :: assocErase rest k

/-! ## Data model -/

/-- A stored book record: all `DB_COLUMNS` of main.py, with the four numeric
fields typed as in the values produced by `parse_book_row`. -/
structure Book where
  book_ID : String
  book_title : String
  book_author : String
  sri_Rating : Rat
  goodreads_avg_rating : Rat
  goodreads_rating_count : Int
  page_count : Int
  Genre_Intent : String
  Pace : String
  Plot_Character : String
  Mood_Finish : String
  goodreads_title : String
  cover_search_title : String
  cover_image_url : String
deriving DecidableEq, Repr

/-- The catalog `books_db`: a dict keyed by `_book_key`, insertion ordered. -/
abbrev Catalog := List (String × Book)

/-- A raw CSV row: a dict from column name to string value. -/
abbrev RawRow := List (String × String)

/-- Python `row.get(col, "")`. -/
def rowGet (row : RawRow) (k : String) : String := (assocFind? row k).getD ""

/-- Python `col in row`. -/
def rowHas (row : RawRow) (k : String) : Bool := (assocFind? row k).isSome

/-- The string representation of each `DB_COLUMNS` field, in source order;
`books_are_equal` and `diff_fields` iterate this list. -/
def dbFields : List (String × (Book → String)) :=
  [ ("book_ID", fun b => b.book_ID)
  , ("book_title", fun b => b.book_title)
  , ("book_author", fun b => b.book_author)
  , ("sri_Rating", fun b => ratRepr b.sri_Rating)
  , ("goodreads_avg_rating", fun b => ratRepr b.goodreads_avg_rating)
  , ("goodreads_rating_count", fun b => intRepr b.goodreads_rating_count)
  , ("page_count", fun b => intRepr b.page_count)
  , ("Genre_Intent", fun b => b.Genre_Intent)
  , ("Pace", fun b => b.Pace)
  , ("Plot_Character", fun b => b.Plot_Character)
  , ("Mood_Finish", fun b => b.Mood_Finish)
  , ("goodreads_title", fun b => b.goodreads_title)
  , ("cover_search_title", fun b => b.cover_search_title)
  , ("cover_image_url", fun b => b.cover_image_url) ]

/-- Source `books_are_equal`: every `DB_COLUMNS` field equal as strings. -/
def books_are_equal (old new : Book) : Bool :=
  dbFields.all (fun f => f.2 old == f.2 new)

/-- Source `diff_fields`: the fields whose string representations differ,
as `(name, old, new)` triples in `DB_COLUMNS` order. -/
def diff_fields (old new : Book) : List (String × String × String) :=
  dbFields.filterMap (fun f =>
    if f.2 old = f.2 new then none else some (f.1, f.2 old, f.2 new))

/-- Source `parse_book_row`: normalize one raw CSV row into a typed record. -/
def parse_book_row (row : RawRow) : Book :=
  let title := pyStrip (rowGet row "book_title")
  { book_ID :=
      if rowHas row "book_ID" ∧ pyStrip (rowGet row "book_ID") ≠ "" then
        pyStrip (rowGet row "book_ID")
      else ""
  , book_title := title
  , book_author := pyStrip (rowGet row "book_author")
  , sri_Rating := pyFloatD (pyStrip (rowGet row "sri_Rating"))
  , goodreads_avg_rating := pyFloatD (pyStrip (rowGet row "goodreads_avg_rating"))
  , goodreads_rating_count := pyIntD (pyStrip (rowGet row "goodreads_rating_count"))
  , page_count := pyIntD (pyStrip (rowGet row "page_count"))
  , Genre_Intent := pyStrip (rowGet row "Genre_Intent")
  , Pace := pyStrip (rowGet row "Pace")
  , Plot_Character := pyStrip (rowGet row "Plot_Character")
  , Mood_Finish := pyStrip (rowGet row "Mood_Finish")
  , goodreads_title :=
      if pyStrip (rowGet row "goodreads_title") = "" then title
      else pyStrip (rowGet row "goodreads_title")
  , cover_search_title :=
      if pyStrip (rowGet row "cover_search_title") = "" then title
      else pyStrip (rowGet row "cover_search_title")
  , cover_image_url := "" }

/-- Source title-and-author combo used both by `_book_key` and by the
fallback scan in `upload_csv`. -/
def taKeyOf (b : Book) : String :=
  pyLower (pyStrip b.book_title) ++ "|" ++ pyLower (pyStrip b.book_author)

/-- Source `_book_key`: the stripped `book_ID` when nonempty, else the
lowercased title-and-author combo. -/
def _book_key (b : Book) : String :=
  if pyStrip b.book_ID ≠ "" then pyStrip b.book_ID else taKeyOf b

/-- Source `_next_book_id`: one more than the maximum numeric id. -/
def maxId (db : Catalog) : Int :=
  db.foldl (fun m p =>
    match pyInt? p.2.book_ID with
    | some v => if v > m then v else m
    | none => m) 0

/-- Source `_next_book_id`: `str(max_id + 1)`. -/
def _next_book_id (db : Catalog) : String := intRepr (maxId db + 1)

/-! ## Reconciliation (`upload_csv` row loop) -/

/-- Per-row summary reported in `added_books` and `skipped_books`. -/
structure RowRef where
  book_ID : String
  book_title : String
  book_author : String
deriving DecidableEq, Repr

/-- Per-row summary reported in `conflicted_books`, with the diff set. -/
structure ConflictRef where
  book_ID : String
  book_title : String
  book_author : String
  differences : List (String × String × String)
deriving DecidableEq, Repr

/-- A staged conflict: `{"old": ..., "new": ...}` in `pending_conflicts`. -/
structure Conflict where
  old : Book
  new : Book
deriving DecidableEq, Repr

/-- The conflict stage `pending_conflicts`. -/
abbrev Stage := List (String × Conflict)

/-- State threaded through the `upload_csv` row loop. -/
structure RunState where
  db : Catalog
  pending : Stage
  added : List RowRef
  skipped : List RowRef
  conflicted : List ConflictRef
  newIds : List String
deriving Repr

/-- The match search of `upload_csv`: by id first (when the candidate
carries one that is a key of the catalog), else the linear scan over the
catalog comparing lowercased title-and-author combos. -/
def findMatch (db : Catalog) (nb : Book) : Option (String × Book) :=
  if nb.book_ID ≠ "" ∧ assocMem db nb.book_ID then
    (assocFind? db nb.book_ID).map (fun b => (nb.book_ID, b))
  else
    db.find? (fun p => taKeyOf p.2 = taKeyOf nb)

/-- One iteration of the `upload_csv` row loop.  `newIds` additionally
records, in row order, the ids assigned by `_next_book_id` (a ghost output
used only to state properties; the source exposes them inside
`added_books`). -/
def processRow (st : RunState) (row : RawRow) : RunState :=
  let nb := parse_book_row row
  match findMatch st.db nb with
  | none =>
    let fresh := nb.book_ID = ""
    let nb := if fresh then { nb with book_ID := _next_book_id st.db } else nb
    let k := _book_key nb
    { st with
      db := assocSet st.db k nb
      added := st.added ++ [⟨nb.book_ID, nb.book_title, nb.book_author⟩]
      newIds := if fresh then st.newIds ++ [nb.book_ID] else st.newIds }
  | some (k, b) =>
    if books_are_equal b nb then
      { st with skipped := st.skipped ++ [⟨b.book_ID, nb.book_title, nb.book_author⟩] }
    else
      let nb2 := { nb with book_ID := b.book_ID }
      { st with
        pending := assocSet st.pending k ⟨b, nb2⟩
        conflicted := st.conflicted ++
          [⟨nb2.book_ID, nb2.book_title, nb2.book_author, diff_fields b nb2⟩] }

/-- The `upload_csv` row loop: previous conflicts are cleared, then each
row is classified as new, duplicate, or conflict, in input order. -/
def processRows (db : Catalog) (rows : List RawRow) : RunState :=
  rows.foldl processRow
    { db := db, pending := [], added := [], skipped := [], conflicted := [], newIds := [] }

/-- Full `upload_csv` after validation: the row loop followed by cover
resolution for exactly the newly added books.  The external cover lookup is
the parameter `resolver` (title, author to URL or empty). -/
def uploadCsv (resolver : String → String → String) (db : Catalog)
    (rows : List RawRow) : RunState :=
  let st := processRows db rows
  let db2 := st.added.foldl (fun d info =>
    match assocFind? d info.book_ID with
    | some b =>
      let searchTitle := if b.cover_search_title ≠ "" then b.cover_search_title else b.book_title
      assocSet d info.book_ID { b with cover_image_url := resolver searchTitle b.book_author }
    | none => d) st.db
  { st with db := db2 }

/-! ## Confirm updates -/

/-- User-surfaced error conditions of the modeled endpoints. -/
inductive ConfirmErr where
  | emptyStage
deriving DecidableEq, Repr

/-- The `confirm_updates` loop over the requested ids, threading the
catalog, the stage, and the `updated` / `not_found` result lists. -/
def confirmLoop (db : Catalog) (st : Stage) (upd nf : List String) :
    List String → Catalog × Stage × List String × List String
  | [] => (db, st, upd, nf)
  | bid :: rest =>
    let k := pyStrip bid
    match assocFind? st k with
    | some c => confirmLoop (assocSet db k c.new) (assocErase st k) (upd ++ [k]) nf rest
    | none => confirmLoop db st upd (nf ++ [k]) rest

/-- Source `confirm_updates`: error when nothing is staged, else apply the
staged `new` record for every requested id present in the stage. -/
def confirm_updates (db : Catalog) (st : Stage) (ids : List String) :
    Except ConfirmErr (Catalog × Stage × List String × List String) :=
  if st.isEmpty then .error .emptyStage
  else .ok (confirmLoop db st [] [] ids)

/-! ## Recommendation -/

/-- The request body of `POST /recommend`. -/
structure RecRequest where
  genre_intent : String
  pace : String
  plot_character : String
  mood_finish : String
  length : String
deriving DecidableEq, Repr

/-- The three `SCORING_FIELDS` (`Genre_Intent` is a filter, never scored). -/
inductive ScoreField where
  | pace
  | plotChar
  | mood
deriving DecidableEq, Repr

/-- `SCORING_FIELDS` in source order. -/
def scoringFields : List ScoreField := [.pace, .plotChar, .mood]

/-- The book attribute corresponding to a scoring field. -/
def bookField (b : Book) : ScoreField → String
  | .pace => b.Pace
  | .plotChar => b.Plot_Character
  | .mood => b.Mood_Finish

/-- The `user_values` mapping of `recommend`. -/
def reqField (r : RecRequest) : ScoreField → String
  | .pace => r.pace
  | .plotChar => r.plot_character
  | .mood => r.mood_finish

/-- Step 1 of `recommend`: keep the books whose normalized `Genre_Intent`
equals the normalized requested value. -/
def filteredBooks (db : Catalog) (req : RecRequest) : List Book :=
  (db.map (fun p => p.2)).filter (fun b => normalize b.Genre_Intent == normalize req.genre_intent)

/-- Source `page_range_for_length` (inclusive page-count ranges). -/
def page_range_for_length (length_key : String) : Int × Int :=
  let key := normalize length_key
  if key = "short" then (0, 200)
  else if key = "medium" then (201, 400)
  else if key = "long" then (401, 600)
  else if key = "epic" then (601, 100000)
  else (0, 0)

/-- The `active_fields` of a request: scoring fields not set to `"any"`. -/
def activeFields (req : RecRequest) : List ScoreField :=
  scoringFields.filter (fun f => normalize (reqField req f) != "any")

/-- The `length_active` flag of a request. -/
def lengthActive (req : RecRequest) : Bool := normalize req.length != "any"

/-- The dynamic `max_score` of a request. -/
def maxScoreOf (req : RecRequest) : Nat :=
  (activeFields req).length + (if lengthActive req then 1 else 0)

/-- The length criterion of the per-book score: one point when the length
preference is active and the page count falls in the mapped range. -/
def lengthScore (req : RecRequest) (pages : Int) : Nat :=
  let lh := page_range_for_length req.length
  if lengthActive req ∧ lh.1 ≤ pages ∧ pages ≤ lh.2 then 1 else 0

/-- The per-book score of `recommend`: one point per matching active
scoring field, plus the length criterion. -/
def scoreBook (req : RecRequest) (b : Book) : Nat :=
  ((activeFields req).countP
    (fun f => normalize (bookField b f) == normalize (reqField req f))) +
    lengthScore req b.page_count

/-- The Goodreads popularity tiebreak of `recommend`:
`gr_rating * math.log(1 + gr_count)`. -/
noncomputable def grPopularity (b : Book) : ℝ :=
  (b.goodreads_avg_rating : ℝ) * Real.log (1 + (b.goodreads_rating_count : ℝ))

/-- Sort key of `GET /books/all`: `(-sri_Rating, -popularity)` ascending. -/
noncomputable def allBooksSortKey (b : Book) : ℝ × ℝ :=
  (-(b.sri_Rating : ℝ), -((b.goodreads_avg_rating : ℝ) * Real.log (1 + (b.goodreads_rating_count : ℝ))))

open Classical in
/-- Ranking order of `recommend`: score descending, then `sri_Rating`
descending, then Goodreads popularity descending. -/
noncomputable def sortLE (a b : Book × Nat) : Bool :=
  decide (b.2 < a.2 ∨ (a.2 = b.2 ∧
    (b.1.sri_Rating < a.1.sri_Rating ∨ (a.1.sri_Rating = b.1.sri_Rating ∧
      grPopularity b.1 ≤ grPopularity a.1))))

/-- Step 2 and the sort of `recommend`: score the filtered books and rank
them. -/
noncomputable def rankedBooks (db : Catalog) (req : RecRequest) : List (Book × Nat) :=
  ((filteredBooks db req).map (fun b => (b, scoreBook req b))).mergeSort sortLE

/-- Error condition of `recommend`. -/
inductive RecErr where
  | noCatalog
deriving DecidableEq, Repr

/-- Response of `recommend`: ranked books with their `match_score`, the
`total`, and the dynamic `max_score`. -/
structure RecResult where
  books : List (Book × Nat)
  total : Nat
  max_score : Nat

/-- Source `recommend`: reject an empty catalog, else filter, score, rank. -/
noncomputable def recommend (db : Catalog) (req : RecRequest) : Except RecErr RecResult :=
  if db.isEmpty then .error .noCatalog
  else
    let ranked := rankedBooks db req
    .ok { books := ranked, total := ranked.length, max_score := maxScoreOf req }

/-! ## Well-formedness invariants -/

/-- The catalog invariant maintained by the source (§3 of its data model):
keys are unique, every stored record has a nonempty, whitespace-free
`book_ID`, and its key is exactly that id (the `_book_key` of the record). -/
def WFCatalog (db : Catalog) : Prop :=
  (db.map (fun p => p.1)).Nodup ∧
  ∀ p ∈ db, p.2.book_ID ≠ "" ∧ pyStrip p.2.book_ID = p.2.book_ID ∧ p.1 = p.2.book_ID

/-- Loop invariant of the `upload_csv` row loop used for the fresh-id
properties: every freshly assigned id parses to a numeric value that is
above every numeric id of the starting catalog and at most the current
maximum; the fresh ids are numerically increasing; the current maximum
never goes down; every added record is reachable in the catalog under its
own id. -/
def RunInv (db0 : Catalog) (st : RunState) : Prop :=
  (∀ s ∈ st.newIds, ∃ v, pyInt? s = some v ∧ maxId db0 < v ∧ v ≤ maxId st.db) ∧
  List.Pairwise (fun s t => (pyInt? s).getD 0 < (pyInt? t).getD 0) st.newIds ∧
  maxId db0 ≤ maxId st.db ∧
  (∀ a ∈ st.added, ∃ b, assocFind? st.db a.book_ID = some b ∧ b.book_ID = a.book_ID) ∧
  List.Pairwise (fun x y => x ≠ y) (st.added.map (fun a => a.book_ID))

/-! ## Concrete test data

Sample inputs used by closed witness and counterexample theorems.  The
numeric strings are dot-free so that every evaluation stays inside
kernel-reducible integer arithmetic. -/

/-- A well-formed CSV row without a `book_ID` column. -/
def sampleRow : RawRow :=
  [("book_title", "Dune"), ("book_author", "Herbert"), ("sri_Rating", "4"),
   ("goodreads_avg_rating", "4"), ("goodreads_rating_count", "100"),
   ("page_count", "412"), ("Genre_Intent", "fantasy"), ("Pace", "slow"),
   ("Plot_Character", "plot"), ("Mood_Finish", "dark")]

/-- The same book as `sampleRow` with a different `sri_Rating`. -/
def sampleRow2 : RawRow :=
  [("book_title", "Dune"), ("book_author", "Herbert"), ("sri_Rating", "5"),
   ("goodreads_avg_rating", "4"), ("goodreads_rating_count", "100"),
   ("page_count", "412"), ("Genre_Intent", "fantasy"), ("Pace", "slow"),
   ("Plot_Character", "plot"), ("Mood_Finish", "dark")]

/-- A raw row with garbled numeric fields, no id, no separate titles. -/
def garbledRow : RawRow :=
  [("book_title", " Dune "), ("book_author", "Herbert"), ("sri_Rating", "four"),
   ("goodreads_avg_rating", ""), ("goodreads_rating_count", "many"),
   ("page_count", ""), ("Genre_Intent", "fantasy"), ("Pace", "slow"),
   ("Plot_Character", "plot"), ("Mood_Finish", "dark"), ("book_ID", "  ")]

/-- The stored record produced by importing `sampleRow` into an empty
catalog (fresh id `"1"`). -/
def sampleBook : Book := { parse_book_row sampleRow with book_ID := "1" }

/-- A one-record catalog holding `sampleBook` under its id. -/
def sampleCatalog : Catalog := [("1", sampleBook)]

/-- A staged conflict pair over `sampleBook`. -/
def sampleConflict : Conflict :=
  ⟨sampleBook, { parse_book_row sampleRow2 with book_ID := "1" }⟩

/-- Recommendation request with every dimension set to `"any"`. -/
def reqAllAny : RecRequest := ⟨"any", "any", "any", "any", "any"⟩

/-- Request whose genre matches nothing in `sampleCatalog`. -/
def reqNoMatch : RecRequest := ⟨"scifi", "any", "any", "any", "any"⟩

/-- Request scoring only the `epic` length bucket. -/
def reqEpic : RecRequest := ⟨"any", "any", "any", "any", "epic"⟩

/-- Request with a length value outside the four named buckets. -/
def reqHuge : RecRequest := ⟨"any", "any", "any", "any", "huge"⟩

/-- A different book stored under id `"3"`. -/
def sampleBook3 : Book := { sampleBook with book_ID := "3", book_title := "Hyperion" }

/-- A one-record catalog whose numeric ids reach 3. -/
def sampleCatalog3 : Catalog := [("3", sampleBook3)]

/-! # Helper lemmas -/

/-! ## Association lists -/

theorem assocFind?_assocSet_self {α : Type} (l : List (String × α)) (k : String) (v : α) :
    assocFind? (assocSet l k v) k = some v := by
  induction l with
  | nil => simp [assocSet, assocFind?]
  | cons p rest ih =>
    obtain ⟨k2, w⟩ := p
    by_cases h : k2 = k
    · simp [assocSet, assocFind?, h]
    · simp [assocSet, assocFind?, h, ih]

theorem assocFind?_assocSet_ne {α : Type} (l : List (String × α)) (k k' : String) (v : α)
    (h : k' ≠ k) : assocFind? (assocSet l k v) k' = assocFind? l k' := by
  induction l with
  | nil => simp [assocSet, assocFind?, Ne.symm h]
  | cons p rest ih =>
    obtain ⟨k2, w⟩ := p
    by_cases h2 : k2 = k
    · subst h2
      simp [assocSet, assocFind?, Ne.symm h]
    · simp [assocSet, assocFind?, h2, ih]

theorem assocFind?_mem {α : Type} {l : List (String × α)} {k : String} {v : α}
    (h : assocFind? l k = some v) : (k, v) ∈ l := by
  induction l with
  | nil => simp [assocFind?] at h
  | cons p rest ih =>
    obtain ⟨k2, w⟩ := p
    by_cases h2 : k2 = k
    · subst h2
      simp [assocFind?] at h
      simp [h]
    · simp [assocFind?, h2] at h
      exact List.mem_cons_of_mem _ (ih h)

theorem assocFind?_eq_none_of_not_key {α : Type} (l : List (String × α)) (k : String)
    (h : k ∉ l.map (fun p => p.1)) : assocFind? l k = none := by
  induction l with
  | nil => rfl
  | cons p rest ih =>
    obtain ⟨k2, w⟩ := p
    rw [List.map_cons, List.mem_cons, not_or] at h
    simp [assocFind?, Ne.symm h.1, ih h.2]

theorem assocSet_of_not_mem {α : Type} (l : List (String × α)) (k : String) (v : α)
    (h : assocFind? l k = none) : assocSet l k v = l ++ [(k, v)] := by
  induction l with
  | nil => rfl
  | cons p rest ih =>
    obtain ⟨k2, w⟩ := p
    by_cases h2 : k2 = k
    · simp [assocFind?, h2] at h
    · simp [assocFind?, h2] at h
      simp [assocSet, h2, ih h]

theorem assocErase_sublist {α : Type} (l : List (String × α)) (k : String) :
    List.Sublist (assocErase l k) l := by
  induction l with
  | nil => simp [assocErase]
  | cons p rest ih =>
    obtain ⟨k2, w⟩ := p
    by_cases h2 : k2 = k
    · simp only [assocErase, if_pos h2]
      exact List.sublist_cons_self _ _
    · simp only [assocErase, if_neg h2]
      exact List.Sublist.cons₂ _ ih

theorem assocFind?_assocErase_ne {α : Type} (l : List (String × α)) (k k' : String)
    (h : k' ≠ k) : assocFind? (assocErase l k) k' = assocFind? l k' := by
  induction l with
  | nil => rfl
  | cons p rest ih =>
    obtain ⟨k2, w⟩ := p
    by_cases h2 : k2 = k
    · subst h2
      simp [assocErase, assocFind?, Ne.symm h]
    · simp [assocErase, assocFind?, h2, ih]

theorem assocFind?_assocErase_self {α : Type} (l : List (String × α)) (k : String)
    (hnd : (l.map (fun p => p.1)).Nodup) : assocFind? (assocErase l k) k = none := by
  induction l with
  | nil => rfl
  | cons p rest ih =>
    obtain ⟨k2, w⟩ := p
    rw [List.map_cons, List.nodup_cons] at hnd
    by_cases h2 : k2 = k
    · subst h2
      simp only [assocErase, if_pos rfl]
      exact assocFind?_eq_none_of_not_key rest k2 hnd.1
    · simp [assocErase, assocFind?, h2]
      exact ih hnd.2

theorem keys_nodup_of_sublist {α : Type} {l l' : List (String × α)}
    (h : List.Sublist l' l) (hnd : (l.map (fun p => p.1)).Nodup) :
    (l'.map (fun p => p.1)).Nodup :=
  (h.map (fun p => p.1)).nodup hnd

/-! ## Strip -/

theorem head?_dropWhile_not {α : Type} {p : α → Bool} :
    ∀ (l : List α) (a : α), (l.dropWhile p).head? = some a → p a = false := by
  intro l
  induction l with
  | nil => intro a h; simp [List.dropWhile] at h
  | cons x xs ih =>
    intro a h
    rw [List.dropWhile_cons] at h
    by_cases hx : p x
    · exact ih a (by simpa [hx] using h)
    · have : x = a := by simpa [hx] using h
      subst this
      simpa using hx

theorem dropWhile_eq_self_of_head {α : Type} {p : α → Bool} (l : List α)
    (h : ∀ a, l.head? = some a → p a = false) : l.dropWhile p = l := by
  cases l with
  | nil => rfl
  | cons x xs =>
    have hx : p x = false := h x rfl
    simp [List.dropWhile_cons, hx]

theorem stripChars_reverse_head (cs : List Char) (a : Char)
    (h : (stripChars cs).reverse.head? = some a) : isWS a = false := by
  unfold stripChars at h
  rw [List.reverse_reverse] at h
  exact head?_dropWhile_not (cs.dropWhile isWS).reverse a h

theorem stripChars_head (cs : List Char) (a : Char)
    (h : (stripChars cs).head? = some a) : isWS a = false := by
  unfold stripChars at h
  set l1 := cs.dropWhile isWS with hl1
  set l2 := l1.reverse.dropWhile isWS with hl2
  rw [List.head?_reverse] at h
  have hsplit : l1.reverse.takeWhile isWS ++ l2 = l1.reverse := by
    rw [hl2]; exact List.takeWhile_append_dropWhile isWS l1.reverse
  have hne : l2 ≠ [] := by
    intro hemp
    rw [hemp] at h
    simp at h
  have h2 : l2.getLast? = l1.reverse.getLast? := by
    rw [← hsplit, List.getLast?_append]
    cases hg : l2.getLast? with
    | none => exact absurd (List.getLast?_eq_none_iff.mp hg) hne
    | some b => simp
  rw [h2, List.getLast?_reverse] at h
  exact head?_dropWhile_not cs a (by simpa [hl1] using h)

theorem stripChars_idem (cs : List Char) : stripChars (stripChars cs) = stripChars cs := by
  have h1 : (stripChars cs).dropWhile isWS = stripChars cs :=
    dropWhile_eq_self_of_head _ (stripChars_head cs)
  have h2 : (stripChars cs).reverse.dropWhile isWS = (stripChars cs).reverse :=
    dropWhile_eq_self_of_head _ (stripChars_reverse_head cs)
  show (((stripChars cs).dropWhile isWS).reverse.dropWhile isWS).reverse = stripChars cs
  rw [h1, h2, List.reverse_reverse]

theorem dropWhile_eq_self_of_all {α : Type} {p : α → Bool} (l : List α)
    (h : l.all (fun a => !p a)) : l.dropWhile p = l := by
  apply dropWhile_eq_self_of_head
  intro a ha
  cases l with
  | nil => simp at ha
  | cons x xs =>
    simp at ha h
    subst ha
    simp [h.1]

theorem stripChars_of_all_not_ws (cs : List Char) (h : cs.all (fun c => !isWS c)) :
    stripChars cs = cs := by
  show ((cs.dropWhile isWS).reverse.dropWhile isWS).reverse = cs
  rw [dropWhile_eq_self_of_all cs h,
    dropWhile_eq_self_of_all cs.reverse (by simpa using h), List.reverse_reverse]

theorem pyStrip_idem (s : String) : pyStrip (pyStrip s) = pyStrip s :=
  congrArg String.mk (stripChars_idem s.data)

/-! ## Decimal printing round trip -/

theorem digitChar_isDigit : ∀ d : Nat, d < 10 → (Nat.digitChar d).isDigit = true := by decide

theorem digitVal_digitChar : ∀ d : Nat, d < 10 → digitVal (Nat.digitChar d) = d := by decide

theorem isDigit_not_ws (c : Char) (h : c.isDigit = true) : isWS c = false := by
  by_contra hq
  rw [Bool.not_eq_false] at hq
  simp only [isWS, Char.isWhitespace, Bool.or_eq_true, decide_eq_true_eq] at hq
  rcases hq with ((h1 | h1) | h1) | h1 <;> subst h1 <;> revert h <;> decide

theorem natReprAux_spec : ∀ fuel n : Nat, n ≤ fuel →
    ((natReprAux fuel n).all Char.isDigit = true) ∧
    (∀ a : Nat, (natReprAux fuel n).foldl (fun x c => 10 * x + digitVal c) a =
      a * 10 ^ (natReprAux fuel n).length + n) := by
  intro fuel
  induction fuel with
  | zero =>
    intro n hn
    have : n = 0 := Nat.le_zero.mp hn
    subst this
    simp [natReprAux]
  | succ f ih =>
    intro n hn
    by_cases h0 : n = 0
    · subst h0
      simp [natReprAux]
    · have hpos : 0 < n := Nat.pos_of_ne_zero h0
      have hdiv : n / 10 ≤ f := by
        have := Nat.div_lt_self hpos (by norm_num : 1 < 10)
        omega
      obtain ⟨ihall, ihfold⟩ := ih (n / 10) hdiv
      have hmod : n % 10 < 10 := Nat.mod_lt _ (by norm_num)
      constructor
      · simp only [natReprAux, if_neg h0, List.all_append, ihall, List.all_cons, List.all_nil]
        simp [digitChar_isDigit _ hmod]
      · intro a
        simp only [natReprAux, if_neg h0, List.foldl_append, List.length_append,
          List.length_cons, List.length_nil, ihfold a, List.foldl_cons, List.foldl_nil]
        rw [digitVal_digitChar _ hmod, pow_succ, ← mul_assoc]
        omega

theorem natRepr_all_digits (n : Nat) : (natRepr n).data.all Char.isDigit = true := by
  by_cases h0 : n = 0
  · subst h0; decide
  · show (if n = 0 then ("0" : String) else String.mk (natReprAux n n)).data.all Char.isDigit = true
    rw [if_neg h0]
    exact (natReprAux_spec n n le_rfl).1

theorem natRepr_ne_nil (n : Nat) : (natRepr n).data ≠ [] := by
  by_cases h0 : n = 0
  · subst h0; decide
  · show (if n = 0 then ("0" : String) else String.mk (natReprAux n n)).data ≠ []
    rw [if_neg h0]
    obtain ⟨f, hf⟩ : ∃ f, n = f + 1 := ⟨n - 1, by omega⟩
    subst hf
    simp [natReprAux, String.mk]

theorem digitsVal_natRepr (n : Nat) : digitsVal (natRepr n).data = n := by
  by_cases h0 : n = 0
  · subst h0; decide
  · show digitsVal (if n = 0 then ("0" : String) else String.mk (natReprAux n n)).data = n
    rw [if_neg h0]
    have := (natReprAux_spec n n le_rfl).2 0
    simpa [digitsVal, String.mk] using this

theorem pyStrip_natRepr (n : Nat) : pyStrip (natRepr n) = natRepr n := by
  have hall : (natRepr n).data.all (fun c => !isWS c) = true := by
    have h := natRepr_all_digits n
    rw [List.all_eq_true] at h ⊢
    intro c hc
    simp [isDigit_not_ws c (h c hc)]
  show String.mk (stripChars (natRepr n).data) = natRepr n
  rw [stripChars_of_all_not_ws _ hall]

theorem pyNat?_natRepr (n : Nat) : pyNat? (natRepr n).data = some n := by
  rw [pyNat?, if_pos ⟨natRepr_ne_nil n, natRepr_all_digits n⟩, digitsVal_natRepr]

theorem pyInt?_natRepr (n : Nat) : pyInt? (natRepr n) = some (n : Int) := by
  rw [pyInt?, pyStrip_natRepr]
  cases hd : (natRepr n).data with
  | nil => exact absurd hd (natRepr_ne_nil n)
  | cons c rest =>
    have hdig : c.isDigit = true := by
      have h := natRepr_all_digits n
      rw [hd, List.all_cons] at h
      exact (Bool.and_eq_true_iff.mp h).1
    have hc1 : ¬ c = '-' := by rintro rfl; simp [Char.isDigit] at hdig
    have hc2 : ¬ c = '+' := by rintro rfl; simp [Char.isDigit] at hdig
    have := pyNat?_natRepr n
    rw [hd] at this
    simp [pyIntChars?, hc1, hc2, this]

theorem maxId_step_ge (m : Int) (p : String × Book) :
    m ≤ (match pyInt? p.2.book_ID with
      | some v => if v > m then v else m
      | none => m) := by
  cases pyInt? p.2.book_ID with
  | none => simp
  | some v =>
    by_cases h : v > m
    · simp [h]; omega
    · simp [h]

theorem maxId_le_foldl : ∀ (l : Catalog) (m : Int),
    m ≤ List.foldl (fun m p =>
      match pyInt? p.2.book_ID with
      | some v => if v > m then v else m
      | none => m) m l := by
  intro l
  induction l with
  | nil => intro m; simp
  | cons p rest ih =>
    intro m
    rw [List.foldl_cons]
    exact le_trans (maxId_step_ge m p) (ih _)

theorem maxId_nonneg (db : Catalog) : 0 ≤ maxId db := maxId_le_foldl db 0

theorem foldl_maxId_ge_of_mem : ∀ (l : Catalog) (m : Int) (p : String × Book), p ∈ l →
    ∀ v, pyInt? p.2.book_ID = some v →
    v ≤ List.foldl (fun m p =>
      match pyInt? p.2.book_ID with
      | some v => if v > m then v else m
      | none => m) m l := by
  intro l
  induction l with
  | nil => intro m p hp; simp at hp
  | cons q rest ih =>
    intro m p hp v hv
    rcases List.mem_cons.mp hp with h | h
    · subst h
      rw [List.foldl_cons]
      refine le_trans ?_ (maxId_le_foldl rest _)
      rw [hv]
      by_cases hgt : v > m
      · simp [hgt]
      · simp [hgt]; omega
    · rw [List.foldl_cons]
      exact ih _ p h v hv

theorem maxId_ge_of_mem (db : Catalog) (p : String × Book) (hp : p ∈ db)
    (v : Int) (hv : pyInt? p.2.book_ID = some v) : v ≤ maxId db :=
  foldl_maxId_ge_of_mem db 0 p hp v hv

theorem maxId_append (l : Catalog) (e : String × Book) : maxId l ≤ maxId (l ++ [e]) := by
  show maxId l ≤ List.foldl _ 0 (l ++ [e])
  rw [List.foldl_append]
  exact le_trans le_rfl (by rw [List.foldl_cons, List.foldl_nil]; exact maxId_step_ge _ e)

theorem pyInt?_next_book_id (db : Catalog) :
    pyInt? (_next_book_id db) = some (maxId db + 1) := by
  have hn : 0 ≤ maxId db := maxId_nonneg db
  rw [_next_book_id, intRepr, if_neg (by omega : ¬ maxId db + 1 < 0), pyInt?_natRepr]
  congr 1
  omega

theorem pyStrip_next_book_id (db : Catalog) :
    pyStrip (_next_book_id db) = _next_book_id db := by
  have hn : 0 ≤ maxId db := maxId_nonneg db
  rw [_next_book_id, intRepr, if_neg (by omega : ¬ maxId db + 1 < 0), pyStrip_natRepr]

theorem next_book_id_ne_empty (db : Catalog) : _next_book_id db ≠ "" := by
  have hn : 0 ≤ maxId db := maxId_nonneg db
  rw [_next_book_id, intRepr, if_neg (by omega : ¬ maxId db + 1 < 0)]
  intro h
  exact natRepr_ne_nil _ (congrArg String.data h)

/-! # Claim theorems -/

/-- C1: re-importing the very same batch right after a first upload (ids
persisted, catalog otherwise untouched, cover lookup returning nothing)
does NOT classify the row as a Duplicate: `books_are_equal` compares
`book_ID` before the id carry-over, so the stored id `"1"` differs from the
candidate's empty id and the row is reported as a Conflict whose computed
difference set is empty, contradicting both the idempotent-re-import
property and the code's own rule that a conflict has differing fields. -/
theorem C1_code_eval :
    (uploadCsv (fun _ _ => "") (uploadCsv (fun _ _ => "") [] [sampleRow]).db [sampleRow]).skipped
        = [] ∧
    (uploadCsv (fun _ _ => "") (uploadCsv (fun _ _ => "") [] [sampleRow]).db [sampleRow]).added
        = [] ∧
    (uploadCsv (fun _ _ => "") (uploadCsv (fun _ _ => "") [] [sampleRow]).db [sampleRow]).conflicted
        = [⟨"1", "Dune", "Herbert", []⟩] := by
  exact ⟨by decide, by decide, by decide⟩

/-- C2 counterexample: against a nonempty catalog whose single record is
tagged `fantasy`, a request whose genre dimension is the sentinel `"any"`
filters the record out — the filter step has no special case for `"any"`,
so the claim that `"any"` never excludes records at the filter step is
false. -/
theorem C2_cex :
    sampleCatalog ≠ [] ∧ filteredBooks sampleCatalog reqAllAny = [] := by
  exact ⟨by decide, by decide⟩

/-- C2 amended: the `Genre_Intent` filter keeps exactly the records whose
normalized intent tag equals the normalized requested value, for every
requested value; the sentinel `"any"` is not special-cased at the filter
step (it keeps exactly the records whose tag normalizes to `"any"`). -/
theorem C2_thm (db : Catalog) (req : RecRequest) (b : Book) :
    b ∈ filteredBooks db req ↔
      b ∈ db.map (fun p => p.2) ∧ normalize b.Genre_Intent = normalize req.genre_intent := by
  simp [filteredBooks, List.mem_filter]

/-- C3 counterexample: the `epic` bucket is capped at 100000 pages (a book
of 100001 pages does not earn the length point), and a length preference
outside the four named buckets (here `"huge"`) maps to the range `[0, 0]`,
which does award the length point to a record with page count 0 — so
neither the unbounded-`epic` part nor the always-zero part of the claim
holds. -/
theorem C3_cex :
    lengthScore reqEpic 100001 = 0 ∧
    scoreBook reqHuge { sampleBook with page_count := 0 } = 1 := by
  exact ⟨by decide, by decide⟩

/-- C3 amended: the length criterion awards its point exactly on
`[0,200]` for `short`, `[201,400]` for `medium`, `[401,600]` for `long`,
`[601,100000]` for `epic`; it always awards 0 for `"any"`; and for every
other length value it awards the point exactly on page count 0 (the
default range `[0, 0]`). -/
theorem C3_thm (req : RecRequest) (pages : Int) :
    (normalize req.length = "short" → (lengthScore req pages = 1 ↔ 0 ≤ pages ∧ pages ≤ 200)) ∧
    (normalize req.length = "medium" → (lengthScore req pages = 1 ↔ 201 ≤ pages ∧ pages ≤ 400)) ∧
    (normalize req.length = "long" → (lengthScore req pages = 1 ↔ 401 ≤ pages ∧ pages ≤ 600)) ∧
    (normalize req.length = "epic" → (lengthScore req pages = 1 ↔ 601 ≤ pages ∧ pages ≤ 100000)) ∧
    (normalize req.length = "any" → lengthScore req pages = 0) ∧
    (normalize req.length ≠ "short" → normalize req.length ≠ "medium" →
      normalize req.length ≠ "long" → normalize req.length ≠ "epic" →
      normalize req.length ≠ "any" → (lengthScore req pages = 1 ↔ pages = 0)) := by
  unfold lengthScore page_range_for_length lengthActive
  refine ⟨fun h => ?_, fun h => ?_, fun h => ?_, fun h => ?_, fun h => ?_, fun h1 h2 h3 h4 h5 => ?_⟩
  · simp only [h]; simp
  · simp only [h]; simp
  · simp only [h]; simp
  · simp only [h]; simp
  · simp only [h]; simp
  · rw [if_neg h1, if_neg h2, if_neg h3, if_neg h4]
    simp [bne_iff_ne, h5]
    omega

/-- C3 witness: a 700-page book earns the length point under the `epic`
preference. -/
theorem C3_w : lengthScore reqEpic 700 = 1 :=
  ((C3_thm reqEpic 700).2.2.2.1 (by decide)).mpr (by decide)

/-- C6: against a nonempty catalog the request always succeeds and its
`max_score` is exactly one point per scorable dimension not set to
`"any"` plus one point when the length preference is not `"any"`; with all
four set to `"any"` the `max_score` is 0 and every filtered-in record is
returned with score 0 (the returned books are a permutation of the
filter survivors). -/
theorem C6_thm (db : Catalog) (req : RecRequest) (hdb : db ≠ []) :
    ∃ r, recommend db req = .ok r ∧
      r.max_score =
        ((if normalize req.pace = "any" then 0 else 1) +
         (if normalize req.plot_character = "any" then 0 else 1) +
         (if normalize req.mood_finish = "any" then 0 else 1) +
         (if normalize req.length = "any" then 0 else 1)) ∧
      ((normalize req.pace = "any" ∧ normalize req.plot_character = "any" ∧
        normalize req.mood_finish = "any" ∧ normalize req.length = "any") →
        r.max_score = 0 ∧ (∀ p ∈ r.books, p.2 = 0) ∧
        List.Perm (r.books.map (fun p => p.1)) (filteredBooks db req)) := by
  have hne : db.isEmpty = false := by simpa [List.isEmpty_iff] using hdb
  have hok : recommend db req =
      .ok ⟨rankedBooks db req, (rankedBooks db req).length, maxScoreOf req⟩ := by
    simp [recommend, hne]
  refine ⟨_, hok, ?_, ?_⟩
  · show maxScoreOf req = _
    by_cases hp : normalize req.pace = "any" <;>
      by_cases hc : normalize req.plot_character = "any" <;>
      by_cases hm : normalize req.mood_finish = "any" <;>
      by_cases hl : normalize req.length = "any" <;>
      simp [maxScoreOf, activeFields, scoringFields, lengthActive, reqField, hp, hc, hm, hl]
  · rintro ⟨hp, hc, hm, hl⟩
    have hactive : activeFields req = [] := by
      simp [activeFields, scoringFields, reqField, hp, hc, hm]
    have hscore : ∀ b, scoreBook req b = 0 := by
      intro b
      simp [scoreBook, hactive, lengthScore, lengthActive, hl]
    refine ⟨?_, ?_, ?_⟩
    · simp [maxScoreOf, hactive, lengthActive, hl]
    · intro p hp2
      have := (List.mergeSort_perm
        ((filteredBooks db req).map (fun b => (b, scoreBook req b))) sortLE).mem_iff.mp hp2
      obtain ⟨b, _, hb⟩ := List.mem_map.mp this
      rw [← hb]
      exact hscore b
    · show List.Perm ((rankedBooks db req).map (fun p => p.1)) (filteredBooks db req)
      have hperm := (List.mergeSort_perm
        ((filteredBooks db req).map (fun b => (b, scoreBook req b))) sortLE).map (fun p => p.1)
      refine hperm.trans ?_
      have : (List.map (fun b => (b, scoreBook req b)) (filteredBooks db req)).map (fun p => p.1)
          = filteredBooks db req := by
        rw [List.map_map]
        exact List.map_id _
      rw [this]

/-- C6 witness: the all-`"any"` request against the sample catalog yields
`max_score = 0`. -/
theorem C6_w : ∃ r, recommend sampleCatalog reqAllAny = .ok r ∧ r.max_score = 0 := by
  obtain ⟨r, hok, _, hall⟩ := C6_thm sampleCatalog reqAllAny (by decide)
  exact ⟨r, hok, (hall (by decide)).1⟩

/-- C7: recommending against an empty catalog fails with the no-catalog
error, while a nonempty catalog in which no record passes the intent
filter yields a successful, empty result. -/
theorem C7_thm (db : Catalog) (req : RecRequest) :
    (db = [] → recommend db req = .error .noCatalog) ∧
    (db ≠ [] → filteredBooks db req = [] →
      ∃ r, recommend db req = .ok r ∧ r.books = [] ∧ r.total = 0) := by
  constructor
  · intro h
    subst h
    simp [recommend]
  · intro h hf
    have hne : db.isEmpty = false := by simpa [List.isEmpty_iff] using h
    refine ⟨⟨rankedBooks db req, (rankedBooks db req).length, maxScoreOf req⟩,
      by simp [recommend, hne], ?_, ?_⟩
    · show rankedBooks db req = []
      simp [rankedBooks, hf]
    · show (rankedBooks db req).length = 0
      simp [rankedBooks, hf]

/-- C7 witness: the two branches at concrete inputs. -/
theorem C7_w :
    recommend [] reqAllAny = .error .noCatalog ∧
    ∃ r, recommend sampleCatalog reqNoMatch = .ok r ∧ r.books = [] ∧ r.total = 0 :=
  ⟨(C7_thm [] reqAllAny).1 rfl, (C7_thm sampleCatalog reqNoMatch).2 (by decide) (by decide)⟩

/-- C8: the popularity metric is `avg * ln(1 + count)`; the catalog
listing sort key uses the same formula; a record with zero rating count
has popularity zero whatever its average; and the metric is monotone in
the average (for nonnegative count) and in the count (for nonnegative
average and count). -/
theorem C8_thm :
    (∀ b : Book, grPopularity b =
      (b.goodreads_avg_rating : ℝ) * Real.log (1 + (b.goodreads_rating_count : ℝ))) ∧
    (∀ b : Book, allBooksSortKey b = (-(b.sri_Rating : ℝ), -grPopularity b)) ∧
    (∀ b : Book, b.goodreads_rating_count = 0 → grPopularity b = 0) ∧
    (∀ b c : Book, b.goodreads_rating_count = c.goodreads_rating_count →
      0 ≤ b.goodreads_rating_count → b.goodreads_avg_rating ≤ c.goodreads_avg_rating →
      grPopularity b ≤ grPopularity c) ∧
    (∀ b c : Book, b.goodreads_avg_rating = c.goodreads_avg_rating →
      0 ≤ b.goodreads_avg_rating → 0 ≤ b.goodreads_rating_count →
      b.goodreads_rating_count ≤ c.goodreads_rating_count →
      grPopularity b ≤ grPopularity c) := by
  refine ⟨fun b => rfl, fun b => rfl, ?_, ?_, ?_⟩
  · intro b h
    simp [grPopularity, h]
  · intro b c hcnt h0 havg
    rw [grPopularity, grPopularity, ← hcnt]
    have hlog : 0 ≤ Real.log (1 + (b.goodreads_rating_count : ℝ)) := by
      apply Real.log_nonneg
      have : (0 : ℝ) ≤ (b.goodreads_rating_count : ℝ) := by exact_mod_cast h0
      linarith
    exact mul_le_mul_of_nonneg_right (by exact_mod_cast havg) hlog
  · intro b c havg h0 hcnt0 hcnt
    rw [grPopularity, grPopularity, ← havg]
    have hb : (0 : ℝ) ≤ (b.goodreads_rating_count : ℝ) := by exact_mod_cast hcnt0
    have hbc : (b.goodreads_rating_count : ℝ) ≤ (c.goodreads_rating_count : ℝ) := by
      exact_mod_cast hcnt
    have hlog : Real.log (1 + (b.goodreads_rating_count : ℝ)) ≤
        Real.log (1 + (c.goodreads_rating_count : ℝ)) := by
      rw [Real.log_le_log_iff (by linarith) (by linarith)]
      linarith
    have hr : (0 : ℝ) ≤ (b.goodreads_avg_rating : ℝ) := by exact_mod_cast h0
    exact mul_le_mul_of_nonneg_left hlog hr

/-- C8 witness: a zero-count variant of the sample book has popularity 0,
and raising the sample book's rating count cannot lower its popularity. -/
theorem C8_w :
    grPopularity { sampleBook with goodreads_rating_count := 0 } = 0 ∧
    grPopularity sampleBook ≤ grPopularity { sampleBook with goodreads_rating_count := 200 } :=
  ⟨C8_thm.2.2.1 _ rfl,
   C8_thm.2.2.2.2 sampleBook { sampleBook with goodreads_rating_count := 200 }
     rfl (by decide) (by decide) (by decide)⟩

/-- C9: row normalization is total and default-filling — a numeric field
whose raw text does not parse becomes 0 (and empty text does not parse),
the display and cover-search titles default to the trimmed title when the
row does not supply a nonblank value, the cover URL always starts empty,
and a nonempty (after trimming) raw id is preserved while a missing or
blank id yields the empty id. -/
theorem C9_thm (row : RawRow) :
    pyFloat? "" = none ∧ pyInt? "" = none ∧
    (pyFloat? (pyStrip (rowGet row "sri_Rating")) = none →
      (parse_book_row row).sri_Rating = 0) ∧
    (pyFloat? (pyStrip (rowGet row "goodreads_avg_rating")) = none →
      (parse_book_row row).goodreads_avg_rating = 0) ∧
    (pyInt? (pyStrip (rowGet row "goodreads_rating_count")) = none →
      (parse_book_row row).goodreads_rating_count = 0) ∧
    (pyInt? (pyStrip (rowGet row "page_count")) = none →
      (parse_book_row row).page_count = 0) ∧
    (pyStrip (rowGet row "goodreads_title") = "" →
      (parse_book_row row).goodreads_title = pyStrip (rowGet row "book_title")) ∧
    (pyStrip (rowGet row "cover_search_title") = "" →
      (parse_book_row row).cover_search_title = pyStrip (rowGet row "book_title")) ∧
    (parse_book_row row).cover_image_url = "" ∧
    (rowHas row "book_ID" = true → pyStrip (rowGet row "book_ID") ≠ "" →
      (parse_book_row row).book_ID = pyStrip (rowGet row "book_ID")) ∧
    ((rowHas row "book_ID" = false ∨ pyStrip (rowGet row "book_ID") = "") →
      (parse_book_row row).book_ID = "") := by
  refine ⟨rfl, rfl, ?_, ?_, ?_, ?_, ?_, ?_, rfl, ?_, ?_⟩
  · intro h; simp [parse_book_row, pyFloatD, h]
  · intro h; simp [parse_book_row, pyFloatD, h]
  · intro h; simp [parse_book_row, pyIntD, h]
  · intro h; simp [parse_book_row, pyIntD, h]
  · intro h; simp [parse_book_row, h]
  · intro h; simp [parse_book_row, h]
  · intro h1 h2; simp [parse_book_row, h1, h2]
  · rintro (h | h)
    · simp [parse_book_row, h]
    · simp [parse_book_row, h]

/-- C9 witness: the garbled sample row normalizes to zero numerics, an
empty id, and title-defaulted display titles. -/
theorem C9_w :
    (parse_book_row garbledRow).sri_Rating = 0 ∧
    (parse_book_row garbledRow).goodreads_rating_count = 0 ∧
    (parse_book_row garbledRow).book_ID = "" ∧
    (parse_book_row garbledRow).goodreads_title = pyStrip (rowGet garbledRow "book_title") := by
  obtain ⟨_, _, h3, _, h5, _, h7, _, _, _, h11⟩ := C9_thm garbledRow
  exact ⟨h3 (by decide), h5 (by decide), h11 (Or.inr (by decide)), h7 (by decide)⟩

/-- Specification of the `confirm_updates` loop, proved by induction over
the requested ids: keys not requested are untouched in both the catalog
and the stage; the result lists only grow; and each requested key is
either applied (staged `new` written at that key, entry dropped from the
stage, key reported in `updated`) or reported in `not_found` with both
structures untouched at that key. -/
theorem confirmLoop_spec : ∀ (ids : List String) (db : Catalog) (st : Stage)
    (upd nf : List String),
    (st.map (fun p => p.1)).Nodup → (ids.map pyStrip).Nodup →
    (∀ k2, k2 ∉ ids.map pyStrip →
      assocFind? (confirmLoop db st upd nf ids).1 k2 = assocFind? db k2 ∧
      assocFind? (confirmLoop db st upd nf ids).2.1 k2 = assocFind? st k2) ∧
    (∀ x ∈ upd, x ∈ (confirmLoop db st upd nf ids).2.2.1) ∧
    (∀ x ∈ nf, x ∈ (confirmLoop db st upd nf ids).2.2.2) ∧
    (∀ bid ∈ ids,
      (∀ c, assocFind? st (pyStrip bid) = some c →
        pyStrip bid ∈ (confirmLoop db st upd nf ids).2.2.1 ∧
        assocFind? (confirmLoop db st upd nf ids).1 (pyStrip bid) = some c.new ∧
        assocFind? (confirmLoop db st upd nf ids).2.1 (pyStrip bid) = none) ∧
      (assocFind? st (pyStrip bid) = none →
        pyStrip bid ∈ (confirmLoop db st upd nf ids).2.2.2 ∧
        assocFind? (confirmLoop db st upd nf ids).1 (pyStrip bid) =
          assocFind? db (pyStrip bid) ∧
        assocFind? (confirmLoop db st upd nf ids).2.1 (pyStrip bid) = none)) := by
  intro ids
  induction ids with
  | nil =>
    intro db st upd nf hst hids
    exact ⟨fun k2 _ => ⟨rfl, rfl⟩, fun x hx => hx, fun x hx => hx,
      fun bid hbid => absurd hbid (List.not_mem_nil bid)⟩
  | cons bid rest ih =>
    intro db st upd nf hst hids
    rw [List.map_cons, List.nodup_cons] at hids
    obtain ⟨hhd, htl⟩ := hids
    cases hfind : assocFind? st (pyStrip bid) with
    | some c =>
      have hstep : confirmLoop db st upd nf (bid :: rest) =
          confirmLoop (assocSet db (pyStrip bid) c.new) (assocErase st (pyStrip bid))
            (upd ++ [pyStrip bid]) nf rest := by
        simp only [confirmLoop, hfind]
      have hst2 : ((assocErase st (pyStrip bid)).map (fun p => p.1)).Nodup :=
        keys_nodup_of_sublist (assocErase_sublist st (pyStrip bid)) hst
      obtain ⟨ihframe, ihupd, ihnf, ihmain⟩ :=
        ih (assocSet db (pyStrip bid) c.new) (assocErase st (pyStrip bid))
          (upd ++ [pyStrip bid]) nf hst2 htl
      rw [hstep]
      refine ⟨?_, ?_, ?_, ?_⟩
      · intro k2 hk2
        rw [List.map_cons, List.mem_cons, not_or] at hk2
        obtain ⟨hne, hnin⟩ := hk2
        obtain ⟨hdb2, hstage2⟩ := ihframe k2 hnin
        rw [hdb2, hstage2, assocFind?_assocSet_ne _ _ _ _ hne,
          assocFind?_assocErase_ne _ _ _ hne]
        exact ⟨rfl, rfl⟩
      · intro x hx
        exact ihupd x (List.mem_append_left _ hx)
      · exact ihnf
      · intro bid2 hbid2
        rcases List.mem_cons.mp hbid2 with h2 | h2
        · subst h2
          constructor
          · intro c' hc'
            rw [hfind] at hc'
            injection hc' with hc'
            subst hc'
            obtain ⟨hdb2, hstage2⟩ := ihframe (pyStrip bid2) hhd
            refine ⟨ihupd _ (List.mem_append_right _ (List.mem_singleton.mpr rfl)), ?_, ?_⟩
            · rw [hdb2, assocFind?_assocSet_self]
            · rw [hstage2, assocFind?_assocErase_self _ _ hst]
          · intro h0
            rw [hfind] at h0
            cases h0
        · have hne : pyStrip bid2 ≠ pyStrip bid := by
            intro he
            exact hhd (he ▸ List.mem_map_of_mem pyStrip h2)
          constructor
          · intro c' hc'
            have : assocFind? (assocErase st (pyStrip bid)) (pyStrip bid2) = some c' := by
              rw [assocFind?_assocErase_ne _ _ _ hne, hc']
            exact (ihmain bid2 h2).1 c' this
          · intro h0
            have : assocFind? (assocErase st (pyStrip bid)) (pyStrip bid2) = none := by
              rw [assocFind?_assocErase_ne _ _ _ hne, h0]
            obtain ⟨ha, hb, hc2⟩ := (ihmain bid2 h2).2 this
            exact ⟨ha, by rw [hb, assocFind?_assocSet_ne _ _ _ _ hne], hc2⟩
    | none =>
      have hstep : confirmLoop db st upd nf (bid :: rest) =
          confirmLoop db st upd (nf ++ [pyStrip bid]) rest := by
        simp only [confirmLoop, hfind]
      obtain ⟨ihframe, ihupd, ihnf, ihmain⟩ := ih db st upd (nf ++ [pyStrip bid]) hst htl
      rw [hstep]
      refine ⟨?_, ?_, ?_, ?_⟩
      · intro k2 hk2
        rw [List.map_cons, List.mem_cons, not_or] at hk2
        exact ihframe k2 hk2.2
      · exact ihupd
      · intro x hx
        exact ihnf x (List.mem_append_left _ hx)
      · intro bid2 hbid2
        rcases List.mem_cons.mp hbid2 with h2 | h2
        · subst h2
          constructor
          · intro c' hc'
            rw [hfind] at hc'
            cases hc'
          · intro _
            obtain ⟨hdb2, hstage2⟩ := ihframe (pyStrip bid2) hhd
            refine ⟨ihnf _ (List.mem_append_right _ (List.mem_singleton.mpr rfl)), hdb2, ?_⟩
            rw [hstage2, hfind]
        · exact ihmain bid2 h2

/-- C4: confirming with an empty stage fails with the empty-stage error
(the pure model returns no new state, so nothing is changed); otherwise,
assuming the request is a set of trimmed-distinct keys, every requested
key present in the stage gets the staged `new` record written into the
catalog at that key and is removed from the stage and reported in
`updated`, while every absent key is reported in `not_found` with the
catalog and the stage untouched at that key. -/
theorem C4_thm (db : Catalog) (st : Stage) (ids : List String)
    (hst : (st.map (fun p => p.1)).Nodup) (hids : (ids.map pyStrip).Nodup) :
    (st = [] → confirm_updates db st ids = .error .emptyStage) ∧
    (st ≠ [] → ∃ db' st' upd nf,
      confirm_updates db st ids = .ok (db', st', upd, nf) ∧
      ∀ bid ∈ ids,
        (∀ c, assocFind? st (pyStrip bid) = some c →
          pyStrip bid ∈ upd ∧ assocFind? db' (pyStrip bid) = some c.new ∧
          assocFind? st' (pyStrip bid) = none) ∧
        (assocFind? st (pyStrip bid) = none →
          pyStrip bid ∈ nf ∧ assocFind? db' (pyStrip bid) = assocFind? db (pyStrip bid) ∧
          assocFind? st' (pyStrip bid) = none)) := by
  constructor
  · intro h
    subst h
    rfl
  · intro h
    have hne : st.isEmpty = false := by simpa [List.isEmpty_iff] using h
    refine ⟨(confirmLoop db st [] [] ids).1, (confirmLoop db st [] [] ids).2.1,
      (confirmLoop db st [] [] ids).2.2.1, (confirmLoop db st [] [] ids).2.2.2, ?_, ?_⟩
    · simp [confirm_updates, hne]
    · exact (confirmLoop_spec ids db st [] [] hst hids).2.2.2

/-! ## Further association-list and match lemmas -/

theorem assocFind?_append {α : Type} (l1 l2 : List (String × α)) (k : String) :
    assocFind? (l1 ++ l2) k =
      match assocFind? l1 k with
      | some v => some v
      | none => assocFind? l2 k := by
  induction l1 with
  | nil => simp [assocFind?]
  | cons p rest ih =>
    obtain ⟨k2, w⟩ := p
    by_cases h2 : k2 = k
    · simp [assocFind?, h2]
    · simp [assocFind?, h2, ih]

theorem assocSet_self_mem {α : Type} (l : List (String × α)) (k : String) (v : α) :
    (k, v) ∈ assocSet l k v := by
  induction l with
  | nil => simp [assocSet]
  | cons p rest ih =>
    obtain ⟨k2, w⟩ := p
    by_cases h2 : k2 = k
    · subst h2
      simp [assocSet]
    · simp [assocSet, h2]
      exact Or.inr ih

theorem assocMem_false_iff {α : Type} (l : List (String × α)) (k : String) :
    assocMem l k = false ↔ assocFind? l k = none := by
  cases h : assocFind? l k <;> simp [assocMem, h]

theorem assocMem_true_iff {α : Type} (l : List (String × α)) (k : String) :
    assocMem l k = true ↔ ∃ v, assocFind? l k = some v := by
  cases h : assocFind? l k <;> simp [assocMem, h]

theorem assocFind?_eq_none_iff {α : Type} (l : List (String × α)) (k : String) :
    assocFind? l k = none ↔ k ∉ l.map (fun p => p.1) := by
  induction l with
  | nil => simp [assocFind?]
  | cons p rest ih =>
    obtain ⟨k2, v⟩ := p
    by_cases h2 : k2 = k
    · subst h2
      simp [assocFind?]
    · simp [assocFind?, h2, ih, Ne.symm h2]

theorem assocFind?_of_mem_nodup {α : Type} {l : List (String × α)} {k : String} {v : α}
    (hmem : (k, v) ∈ l) (hnd : (l.map (fun p => p.1)).Nodup) :
    assocFind? l k = some v := by
  induction l with
  | nil => simp at hmem
  | cons p rest ih =>
    obtain ⟨k2, w⟩ := p
    rw [List.map_cons, List.nodup_cons] at hnd
    rcases List.mem_cons.mp hmem with h2 | h2
    · injection h2 with ha hb
      subst ha
      subst hb
      simp [assocFind?]
    · have hne : k2 ≠ k := by
        intro he
        subst he
        exact hnd.1 (List.mem_map_of_mem (fun p => p.1) h2)
      simp [assocFind?, hne]
      exact ih h2 hnd.2

theorem findMatch_none_find_id (db : Catalog) (nb : Book)
    (h : findMatch db nb = none) (hne : nb.book_ID ≠ "") :
    assocFind? db nb.book_ID = none := by
  unfold findMatch at h
  by_cases hmem : assocMem db nb.book_ID = true
  · rw [if_pos ⟨hne, hmem⟩] at h
    obtain ⟨v, hv⟩ := (assocMem_true_iff _ _).mp hmem
    rw [hv] at h
    simp at h
  · exact (assocMem_false_iff _ _).mp (by simpa using hmem)

theorem findMatch_some_find (db : Catalog) (nb : Book) (k : String) (b : Book)
    (hnd : (db.map (fun p => p.1)).Nodup)
    (h : findMatch db nb = some (k, b)) : assocFind? db k = some b := by
  unfold findMatch at h
  by_cases hc : nb.book_ID ≠ "" ∧ assocMem db nb.book_ID = true
  · rw [if_pos hc] at h
    obtain ⟨v, hv⟩ := (assocMem_true_iff _ _).mp hc.2
    rw [hv] at h
    simp at h
    obtain ⟨hk, hb⟩ := h
    rw [← hk, hv, hb]
  · rw [if_neg hc] at h
    exact assocFind?_of_mem_nodup (List.mem_of_find?_eq_some h) hnd

/-! ## Row-loop step equations -/

theorem parse_book_row_ID_strip (row : RawRow) :
    pyStrip (parse_book_row row).book_ID = (parse_book_row row).book_ID := by
  show pyStrip (if rowHas row "book_ID" ∧ pyStrip (rowGet row "book_ID") ≠ "" then
      pyStrip (rowGet row "book_ID") else "") =
    (if rowHas row "book_ID" ∧ pyStrip (rowGet row "book_ID") ≠ "" then
      pyStrip (rowGet row "book_ID") else "")
  by_cases h : rowHas row "book_ID" ∧ pyStrip (rowGet row "book_ID") ≠ ""
  · rw [if_pos h, pyStrip_idem]
  · rw [if_neg h]
    rfl

theorem book_key_of_stripped (b : Book) (h1 : b.book_ID ≠ "") (h2 : pyStrip b.book_ID = b.book_ID) :
    _book_key b = b.book_ID := by
  rw [_book_key, h2, if_pos h1]

theorem processRow_none_fresh (st : RunState) (row : RawRow)
    (h : findMatch st.db (parse_book_row row) = none)
    (hf : (parse_book_row row).book_ID = "") :
    processRow st row = { st with
      db := assocSet st.db (_next_book_id st.db)
        { parse_book_row row with book_ID := _next_book_id st.db }
      added := st.added ++ [⟨_next_book_id st.db, (parse_book_row row).book_title,
        (parse_book_row row).book_author⟩]
      newIds := st.newIds ++ [_next_book_id st.db] } := by
  have hkey : _book_key { parse_book_row row with book_ID := _next_book_id st.db } =
      _next_book_id st.db :=
    book_key_of_stripped _ (next_book_id_ne_empty st.db) (pyStrip_next_book_id st.db)
  simp only [processRow, h, if_pos hf, hkey]

theorem processRow_none_legacy (st : RunState) (row : RawRow)
    (h : findMatch st.db (parse_book_row row) = none)
    (hf : (parse_book_row row).book_ID ≠ "") :
    processRow st row = { st with
      db := assocSet st.db (parse_book_row row).book_ID (parse_book_row row)
      added := st.added ++ [⟨(parse_book_row row).book_ID, (parse_book_row row).book_title,
        (parse_book_row row).book_author⟩] } := by
  have hkey : _book_key (parse_book_row row) = (parse_book_row row).book_ID :=
    book_key_of_stripped _ hf (parse_book_row_ID_strip row)
  simp only [processRow, h, if_neg hf, hkey]

theorem processRow_some_dup (st : RunState) (row : RawRow) (k : String) (b : Book)
    (h : findMatch st.db (parse_book_row row) = some (k, b))
    (he : books_are_equal b (parse_book_row row) = true) :
    processRow st row = { st with
      skipped := st.skipped ++ [⟨b.book_ID, (parse_book_row row).book_title,
        (parse_book_row row).book_author⟩] } := by
  simp only [processRow, h, he, if_pos]

theorem processRow_some_conflict (st : RunState) (row : RawRow) (k : String) (b : Book)
    (h : findMatch st.db (parse_book_row row) = some (k, b))
    (he : books_are_equal b (parse_book_row row) = false) :
    processRow st row = { st with
      pending := assocSet st.pending k
        ⟨b, { parse_book_row row with book_ID := b.book_ID }⟩
      conflicted := st.conflicted ++ [⟨b.book_ID, (parse_book_row row).book_title,
        (parse_book_row row).book_author,
        diff_fields b { parse_book_row row with book_ID := b.book_ID }⟩] } := by
  simp only [processRow, h, he, Bool.false_eq_true, if_neg, ite_false]

/-- C4 witness: with one staged conflict under key `"1"`, confirming the
keys `"1"` and `"2"` applies the first and reports the second missing. -/
theorem C4_w : ∃ db' st' upd nf,
    confirm_updates [] [("1", sampleConflict)] ["1", "2"] = .ok (db', st', upd, nf) ∧
    "1" ∈ upd ∧ assocFind? db' "1" = some sampleConflict.new ∧
    assocFind? st' "1" = none ∧ "2" ∈ nf := by
  obtain ⟨-, h2⟩ := C4_thm [] [("1", sampleConflict)] ["1", "2"] (by decide) (by decide)
  obtain ⟨db', st', upd, nf, hok, hall⟩ := h2 (by decide)
  obtain ⟨ha, hb, hc⟩ := (hall "1" (by decide)).1 sampleConflict (by decide)
  obtain ⟨hd, -, -⟩ := (hall "2" (by decide)).2 (by decide)
  exact ⟨db', st', upd, nf, hok, ha, hb, hc, hd⟩

/-! ## Fresh-id invariant of the row loop -/

/-- One row-loop step preserves the fresh-id invariant `RunInv`. -/
theorem processRow_runinv (db0 : Catalog) (st : RunState) (row : RawRow)
    (h : RunInv db0 st) : RunInv db0 (processRow st row) := by
  unfold RunInv at h ⊢
  obtain ⟨h1, h2, h3, h4, h5⟩ := h
  cases hm : findMatch st.db (parse_book_row row) with
  | some p =>
    obtain ⟨k, b⟩ := p
    cases he : books_are_equal b (parse_book_row row) with
    | true =>
      rw [processRow_some_dup st row k b hm he]
      exact ⟨h1, h2, h3, h4, h5⟩
    | false =>
      rw [processRow_some_conflict st row k b hm he]
      exact ⟨h1, h2, h3, h4, h5⟩
  | none =>
    by_cases hf : (parse_book_row row).book_ID = ""
    · rw [processRow_none_fresh st row hm hf]
      dsimp only
      have hparse : pyInt? (_next_book_id st.db) = some (maxId st.db + 1) :=
        pyInt?_next_book_id st.db
      have hmem2 : (_next_book_id st.db,
          ({ parse_book_row row with book_ID := _next_book_id st.db } : Book)) ∈
          assocSet st.db (_next_book_id st.db)
            { parse_book_row row with book_ID := _next_book_id st.db } :=
        assocSet_self_mem _ _ _
      have hmax' : maxId st.db + 1 ≤
          maxId (assocSet st.db (_next_book_id st.db)
            { parse_book_row row with book_ID := _next_book_id st.db }) :=
        maxId_ge_of_mem _ _ hmem2 (maxId st.db + 1) hparse
      dsimp only at hmem2 hmax'
      have hfresh_ne : ∀ a ∈ st.added, a.book_ID ≠ _next_book_id st.db := by
        intro a ha he2
        obtain ⟨b2, hb2, hbid⟩ := h4 a ha
        have hp2 : pyInt? b2.book_ID = some (maxId st.db + 1) := by
          rw [hbid, he2]
          exact hparse
        have hle := maxId_ge_of_mem st.db (a.book_ID, b2) (assocFind?_mem hb2)
          (maxId st.db + 1) hp2
        omega
      refine ⟨?_, ?_, by omega, ?_, ?_⟩
      · intro s2 hs2
        rcases List.mem_append.mp hs2 with hold | hnew
        · obtain ⟨v, hv1, hv2, hv3⟩ := h1 s2 hold
          exact ⟨v, hv1, hv2, by omega⟩
        · rw [List.mem_singleton] at hnew
          subst hnew
          exact ⟨maxId st.db + 1, hparse, by omega, hmax'⟩
      · rw [List.pairwise_append]
        refine ⟨h2, List.pairwise_singleton _ _, ?_⟩
        intro x hx y hy
        rw [List.mem_singleton] at hy
        subst hy
        obtain ⟨v, hv1, hv2, hv3⟩ := h1 x hx
        rw [hv1, hparse]
        simp only [Option.getD_some]
        omega
      · intro a ha
        rcases List.mem_append.mp ha with hold | hnew
        · obtain ⟨b2, hb2, hbid⟩ := h4 a hold
          refine ⟨b2, ?_, hbid⟩
          rw [assocFind?_assocSet_ne _ _ _ _ (hfresh_ne a hold)]
          exact hb2
        · rw [List.mem_singleton] at hnew
          subst hnew
          exact ⟨_, assocFind?_assocSet_self _ _ _, rfl⟩
      · rw [List.map_append, List.pairwise_append]
        refine ⟨h5, List.pairwise_singleton _ _, ?_⟩
        intro x hx y hy
        rw [List.map_singleton, List.mem_singleton] at hy
        subst hy
        obtain ⟨a, ha, hax⟩ := List.mem_map.mp hx
        rw [← hax]
        exact hfresh_ne a ha
    · rw [processRow_none_legacy st row hm hf]
      dsimp only
      have hnfind : assocFind? st.db (parse_book_row row).book_ID = none :=
        findMatch_none_find_id st.db (parse_book_row row) hm hf
      have happ : assocSet st.db (parse_book_row row).book_ID (parse_book_row row) =
          st.db ++ [((parse_book_row row).book_ID, parse_book_row row)] :=
        assocSet_of_not_mem _ _ _ hnfind
      have hmax' : maxId st.db ≤
          maxId (st.db ++ [((parse_book_row row).book_ID, parse_book_row row)]) :=
        maxId_append st.db _
      refine ⟨?_, h2, ?_, ?_, ?_⟩
      · intro s2 hs2
        obtain ⟨v, hv1, hv2, hv3⟩ := h1 s2 hs2
        refine ⟨v, hv1, hv2, ?_⟩
        rw [happ]
        omega
      · rw [happ]
        omega
      · intro a ha
        rcases List.mem_append.mp ha with hold | hnew
        · obtain ⟨b2, hb2, hbid⟩ := h4 a hold
          refine ⟨b2, ?_, hbid⟩
          rw [happ, assocFind?_append, hb2]
        · rw [List.mem_singleton] at hnew
          subst hnew
          refine ⟨parse_book_row row, ?_, rfl⟩
          rw [happ, assocFind?_append, hnfind]
          simp [assocFind?]
      · rw [List.map_append, List.pairwise_append]
        refine ⟨h5, List.pairwise_singleton _ _, ?_⟩
        intro x hx y hy
        rw [List.map_singleton, List.mem_singleton] at hy
        subst hy
        obtain ⟨a, ha, hax⟩ := List.mem_map.mp hx
        intro he2
        obtain ⟨b2, hb2, -⟩ := h4 a ha
        rw [hax, he2, hnfind] at hb2
        cases hb2

/-- The row loop started on catalog `db0` satisfies the fresh-id
invariant. -/
theorem processRows_runinv (db0 : Catalog) (rows : List RawRow) :
    RunInv db0 (processRows db0 rows) := by
  suffices h : ∀ (l : List RawRow) (st : RunState), RunInv db0 st →
      RunInv db0 (l.foldl processRow st) by
    apply h
    unfold RunInv
    refine ⟨?_, ?_, le_rfl, ?_, ?_⟩ <;> simp
  intro l
  induction l with
  | nil => intro st h; exact h
  | cons r rest ih =>
    intro st h
    exact ih _ (processRow_runinv db0 st r h)

/-- One unfolding of the row loop over `take`-prefixes of the batch. -/
theorem processRows_take_succ (db : Catalog) (rows : List RawRow) (i : Nat)
    (hi : i < rows.length) :
    processRows db (rows.take (i + 1)) =
      processRow (processRows db (rows.take i)) (rows.get ⟨i, hi⟩) := by
  have ht : rows.take (i + 1) = rows.take i ++ [rows.get ⟨i, hi⟩] := by
    rw [List.take_succ]
    congr 1
    rw [← List.get?_eq_getElem?, List.get?_eq_get hi]
    rfl
  rw [ht]
  unfold processRows
  rw [List.foldl_append, List.foldl_cons, List.foldl_nil]

/-- C10: within one reconciliation run the freshly assigned ids all parse
as numbers strictly above every numeric id of the starting catalog, they
are strictly increasing in row order (hence pairwise distinct), no two
records added by one run share an id, and each fresh id is exactly
`str(max numeric id + 1)` computed on the catalog as it stands after all
earlier rows of the batch were processed. -/
theorem C10_thm (db : Catalog) (rows : List RawRow) :
    (∀ s ∈ (processRows db rows).newIds, ∃ v, pyInt? s = some v ∧ maxId db < v) ∧
    List.Pairwise (fun s t => (pyInt? s).getD 0 < (pyInt? t).getD 0)
      (processRows db rows).newIds ∧
    List.Pairwise (fun x y => x ≠ y)
      ((processRows db rows).added.map (fun a => a.book_ID)) ∧
    (∀ p ∈ db, ∀ v, pyInt? p.2.book_ID = some v →
      ∀ s ∈ (processRows db rows).newIds, v < (pyInt? s).getD 0) ∧
    (∀ i, (hi : i < rows.length) →
      (parse_book_row (rows.get ⟨i, hi⟩)).book_ID = "" →
      findMatch (processRows db (rows.take i)).db (parse_book_row (rows.get ⟨i, hi⟩)) = none →
      (processRows db (rows.take (i + 1))).newIds =
        (processRows db (rows.take i)).newIds ++
          [intRepr (maxId (processRows db (rows.take i)).db + 1)]) := by
  obtain ⟨h1, h2, h3, h4, h5⟩ := processRows_runinv db rows
  refine ⟨?_, h2, h5, ?_, ?_⟩
  · intro s hs
    obtain ⟨v, hv1, hv2, -⟩ := h1 s hs
    exact ⟨v, hv1, hv2⟩
  · intro p hp v hv s hs
    obtain ⟨w, hw1, hw2, -⟩ := h1 s hs
    have hle := maxId_ge_of_mem db p hp v hv
    rw [hw1]
    simp only [Option.getD_some]
    omega
  · intro i hi hf hm
    rw [processRows_take_succ db rows i hi, processRow_none_fresh _ _ hm hf]
    rfl

/-- C10 witness: importing one id-free row into a catalog whose maximum
numeric id is 3 assigns the fresh id `"4"`, whose value exceeds 3. -/
theorem C10_w : ∃ v, pyInt? "4" = some v ∧ maxId sampleCatalog3 < v := by
  have h := (C10_thm sampleCatalog3 [sampleRow]).1
  exact h "4" (by decide)

/-! ## Frame invariant of the row loop over well-formed catalogs -/

/-- One row-loop step preserves: catalog well-formedness, the values of
all keys that existed before the run, the description of every staged
conflict at a pre-existing key, and the fact that added records sit at
keys that did not exist before the run. -/
theorem processRow_wfinv (db0 : Catalog) (st : RunState) (row : RawRow)
    (hwf : WFCatalog st.db)
    (hframe : ∀ k, assocMem db0 k = true → assocFind? st.db k = assocFind? db0 k)
    (hpend : ∀ k c, assocFind? st.pending k = some c → assocMem db0 k = true →
      ∃ b, assocFind? db0 k = some b ∧ c.old = b ∧ c.new.book_ID = b.book_ID ∧
        (⟨b.book_ID, c.new.book_title, c.new.book_author, diff_fields b c.new⟩ : ConflictRef)
          ∈ st.conflicted)
    (hadded : ∀ a ∈ st.added, assocMem db0 a.book_ID = false) :
    WFCatalog (processRow st row).db ∧
    (∀ k, assocMem db0 k = true →
      assocFind? (processRow st row).db k = assocFind? db0 k) ∧
    (∀ k c, assocFind? (processRow st row).pending k = some c → assocMem db0 k = true →
      ∃ b, assocFind? db0 k = some b ∧ c.old = b ∧ c.new.book_ID = b.book_ID ∧
        (⟨b.book_ID, c.new.book_title, c.new.book_author, diff_fields b c.new⟩ : ConflictRef)
          ∈ (processRow st row).conflicted) ∧
    (∀ a ∈ (processRow st row).added, assocMem db0 a.book_ID = false) := by
  cases hm : findMatch st.db (parse_book_row row) with
  | some p =>
    obtain ⟨k, b⟩ := p
    have hfindb : assocFind? st.db k = some b :=
      findMatch_some_find st.db (parse_book_row row) k b hwf.1 hm
    cases he : books_are_equal b (parse_book_row row) with
    | true =>
      rw [processRow_some_dup st row k b hm he]
      exact ⟨hwf, hframe, hpend, hadded⟩
    | false =>
      rw [processRow_some_conflict st row k b hm he]
      dsimp only
      refine ⟨hwf, hframe, ?_, hadded⟩
      intro k2 c2 hf2 hm0
      by_cases hk : k2 = k
      · subst hk
        rw [assocFind?_assocSet_self] at hf2
        injection hf2 with hf2
        subst hf2
        refine ⟨b, ?_, rfl, rfl, ?_⟩
        · rw [← hframe k2 hm0, hfindb]
        · exact List.mem_append_right _ (List.mem_singleton.mpr rfl)
      · rw [assocFind?_assocSet_ne _ _ _ _ hk] at hf2
        obtain ⟨b0, hb0, hold, hnew, hmemc⟩ := hpend k2 c2 hf2 hm0
        exact ⟨b0, hb0, hold, hnew, List.mem_append_left _ hmemc⟩
  | none =>
    by_cases hf : (parse_book_row row).book_ID = ""
    · rw [processRow_none_fresh st row hm hf]
      dsimp only
      have hparse : pyInt? (_next_book_id st.db) = some (maxId st.db + 1) :=
        pyInt?_next_book_id st.db
      have hnomem : assocFind? st.db (_next_book_id st.db) = none := by
        cases hq : assocFind? st.db (_next_book_id st.db) with
        | none => rfl
        | some b2 =>
          obtain ⟨-, -, hkey⟩ := hwf.2 _ (assocFind?_mem hq)
          have hp2 : pyInt? b2.book_ID = some (maxId st.db + 1) := by
            rw [← hkey]
            exact hparse
          have hle := maxId_ge_of_mem st.db _ (assocFind?_mem hq) (maxId st.db + 1) hp2
          omega
      have happ : assocSet st.db (_next_book_id st.db)
            { parse_book_row row with book_ID := _next_book_id st.db } =
          st.db ++ [(_next_book_id st.db,
            { parse_book_row row with book_ID := _next_book_id st.db })] :=
        assocSet_of_not_mem _ _ _ hnomem
      rw [happ]
      refine ⟨⟨?_, ?_⟩, ?_, hpend, ?_⟩
      · rw [List.map_append, List.nodup_append]
        refine ⟨hwf.1, by simp, ?_⟩
        intro a ha hb
        rw [List.map_singleton, List.mem_singleton] at hb
        rw [hb] at ha
        exact ((assocFind?_eq_none_iff st.db _).mp hnomem) ha
      · intro p hp
        rcases List.mem_append.mp hp with hold | hnew
        · exact hwf.2 p hold
        · rw [List.mem_singleton] at hnew
          subst hnew
          exact ⟨next_book_id_ne_empty st.db, pyStrip_next_book_id st.db, rfl⟩
      · intro k hk
        obtain ⟨v, hv⟩ := (assocMem_true_iff db0 k).mp hk
        rw [assocFind?_append, hframe k hk, hv]
      · intro a ha
        rcases List.mem_append.mp ha with hold | hnew
        · exact hadded a hold
        · rw [List.mem_singleton] at hnew
          subst hnew
          cases hq : assocMem db0 (_next_book_id st.db) with
          | false => rfl
          | true =>
            obtain ⟨v, hv⟩ := (assocMem_true_iff _ _).mp hq
            rw [← hframe _ hq, hnomem] at hv
            cases hv
    · rw [processRow_none_legacy st row hm hf]
      dsimp only
      have hnomem : assocFind? st.db (parse_book_row row).book_ID = none :=
        findMatch_none_find_id st.db (parse_book_row row) hm hf
      have happ : assocSet st.db (parse_book_row row).book_ID (parse_book_row row) =
          st.db ++ [((parse_book_row row).book_ID, parse_book_row row)] :=
        assocSet_of_not_mem _ _ _ hnomem
      rw [happ]
      refine ⟨⟨?_, ?_⟩, ?_, hpend, ?_⟩
      · rw [List.map_append, List.nodup_append]
        refine ⟨hwf.1, by simp, ?_⟩
        intro a ha hb
        rw [List.map_singleton, List.mem_singleton] at hb
        rw [hb] at ha
        exact ((assocFind?_eq_none_iff st.db _).mp hnomem) ha
      · intro p hp
        rcases List.mem_append.mp hp with hold | hnew
        · exact hwf.2 p hold
        · rw [List.mem_singleton] at hnew
          subst hnew
          exact ⟨hf, parse_book_row_ID_strip row, rfl⟩
      · intro k hk
        obtain ⟨v, hv⟩ := (assocMem_true_iff db0 k).mp hk
        rw [assocFind?_append, hframe k hk, hv]
      · intro a ha
        rcases List.mem_append.mp ha with hold | hnew
        · exact hadded a hold
        · rw [List.mem_singleton] at hnew
          subst hnew
          cases hq : assocMem db0 (parse_book_row row).book_ID with
          | false => rfl
          | true =>
            obtain ⟨v, hv⟩ := (assocMem_true_iff _ _).mp hq
            rw [← hframe _ hq, hnomem] at hv
            cases hv

/-- The frame invariant lifted over the whole row loop. -/
theorem processRows_wfinv (db0 : Catalog) (rows : List RawRow) (hwf0 : WFCatalog db0) :
    WFCatalog (processRows db0 rows).db ∧
    (∀ k, assocMem db0 k = true →
      assocFind? (processRows db0 rows).db k = assocFind? db0 k) ∧
    (∀ k c, assocFind? (processRows db0 rows).pending k = some c → assocMem db0 k = true →
      ∃ b, assocFind? db0 k = some b ∧ c.old = b ∧ c.new.book_ID = b.book_ID ∧
        (⟨b.book_ID, c.new.book_title, c.new.book_author, diff_fields b c.new⟩ : ConflictRef)
          ∈ (processRows db0 rows).conflicted) ∧
    (∀ a ∈ (processRows db0 rows).added, assocMem db0 a.book_ID = false) := by
  suffices h : ∀ (l : List RawRow) (st : RunState),
      WFCatalog st.db →
      (∀ k, assocMem db0 k = true → assocFind? st.db k = assocFind? db0 k) →
      (∀ k c, assocFind? st.pending k = some c → assocMem db0 k = true →
        ∃ b, assocFind? db0 k = some b ∧ c.old = b ∧ c.new.book_ID = b.book_ID ∧
          (⟨b.book_ID, c.new.book_title, c.new.book_author, diff_fields b c.new⟩ : ConflictRef)
            ∈ st.conflicted) →
      (∀ a ∈ st.added, assocMem db0 a.book_ID = false) →
      WFCatalog (l.foldl processRow st).db ∧
      (∀ k, assocMem db0 k = true →
        assocFind? (l.foldl processRow st).db k = assocFind? db0 k) ∧
      (∀ k c, assocFind? (l.foldl processRow st).pending k = some c →
        assocMem db0 k = true →
        ∃ b, assocFind? db0 k = some b ∧ c.old = b ∧ c.new.book_ID = b.book_ID ∧
          (⟨b.book_ID, c.new.book_title, c.new.book_author, diff_fields b c.new⟩ : ConflictRef)
            ∈ (l.foldl processRow st).conflicted) ∧
      (∀ a ∈ (l.foldl processRow st).added, assocMem db0 a.book_ID = false) by
    exact h rows _ hwf0 (fun k _ => rfl) (fun k c hc _ => by cases hc) (by simp)
  intro l
  induction l with
  | nil => intro st h1 h2 h3 h4; exact ⟨h1, h2, h3, h4⟩
  | cons r rest ih =>
    intro st h1 h2 h3 h4
    obtain ⟨g1, g2, g3, g4⟩ := processRow_wfinv db0 st r h1 h2 h3 h4
    exact ih _ g1 g2 g3 g4

/-- Cover resolution only touches the freshly added keys, so every key
that existed before the run keeps its value. -/
theorem coverFold_frame (db0 : Catalog) (resolver : String → String → String) :
    ∀ (added : List RowRef) (d : Catalog),
    (∀ a ∈ added, assocMem db0 a.book_ID = false) →
    ∀ k, assocMem db0 k = true →
    assocFind? (added.foldl (fun d info =>
      match assocFind? d info.book_ID with
      | some b =>
        let searchTitle := if b.cover_search_title ≠ "" then b.cover_search_title else b.book_title
        assocSet d info.book_ID { b with cover_image_url := resolver searchTitle b.book_author }
      | none => d) d) k = assocFind? d k := by
  intro added
  induction added with
  | nil => intro d _ k _; rfl
  | cons a rest ih =>
    intro d hadded k hk
    rw [List.foldl_cons]
    have hne : k ≠ a.book_ID := by
      intro he
      have hfa := hadded a (List.mem_cons_self a rest)
      rw [← he] at hfa
      rw [hfa] at hk
      cases hk
    have hstep : ∀ d2 : Catalog, assocFind? (match assocFind? d2 a.book_ID with
        | some b =>
          let searchTitle := if b.cover_search_title ≠ "" then b.cover_search_title else b.book_title
          assocSet d2 a.book_ID { b with cover_image_url := resolver searchTitle b.book_author }
        | none => d2) k = assocFind? d2 k := by
      intro d2
      cases hq : assocFind? d2 a.book_ID with
      | none => rfl
      | some b => exact assocFind?_assocSet_ne _ _ _ _ hne
    rw [ih _ (fun a2 ha2 => hadded a2 (List.mem_cons_of_mem a ha2)) k hk, hstep d]

/-- C5 amended: on a well-formed catalog, for every conflict staged by the
run at a key that already existed before the run, the catalog entry at
that key is unchanged by the whole upload (including cover resolution),
the staged `old` is exactly that existing record, the staged candidate
has its id overwritten with the existing record's id, and the conflicted
report carries the diff computed from that id-overwritten candidate. -/
theorem C5_thm (resolver : String → String → String) (db : Catalog) (rows : List RawRow)
    (hwf : WFCatalog db) :
    ∀ k c, assocFind? (uploadCsv resolver db rows).pending k = some c →
      assocMem db k = true →
      assocFind? (uploadCsv resolver db rows).db k = assocFind? db k ∧
      ∃ b, assocFind? db k = some b ∧ c.old = b ∧ c.new.book_ID = b.book_ID ∧
        (⟨b.book_ID, c.new.book_title, c.new.book_author, diff_fields b c.new⟩ : ConflictRef)
          ∈ (uploadCsv resolver db rows).conflicted := by
  obtain ⟨hwf', hframe, hpend, hadded⟩ := processRows_wfinv db rows hwf
  intro k c hfind hmem
  constructor
  · show assocFind? ((processRows db rows).added.foldl _ (processRows db rows).db) k = _
    rw [coverFold_frame db resolver (processRows db rows).added (processRows db rows).db
      hadded k hmem]
    exact hframe k hmem
  · exact hpend k c hfind hmem

/-- C5 counterexample to the unrestricted claim: in a batch whose first
row is new and whose second row conflicts with the record just added, the
conflict is staged under key `"1"`, yet the catalog mapping for `"1"` is
not identical before and after the run (absent before, present after) —
the change was made by the add, not by the staging, so the claim must be
restricted to keys that existed before the run. -/
theorem C5_cex :
    (assocFind? (processRows [] [sampleRow, sampleRow2]).pending "1").isSome = true ∧
    assocFind? ([] : Catalog) "1" = none ∧
    (assocFind? (processRows [] [sampleRow, sampleRow2]).db "1").isSome = true := by
  exact ⟨by decide, rfl, by decide⟩

/-- C5 witness: uploading the changed-rating row against the sample
catalog stages a conflict at key `"1"` whose `old` is the stored record,
and leaves the stored record in place. -/
theorem C5_w :
    assocFind? (uploadCsv (fun _ _ => "") sampleCatalog [sampleRow2]).db "1" =
      assocFind? sampleCatalog "1" ∧
    ∃ b, assocFind? sampleCatalog "1" = some b ∧ sampleConflict.old = b ∧
      sampleConflict.new.book_ID = b.book_ID := by
  obtain ⟨h1, b, hb, hold, hnew, -⟩ := C5_thm (fun _ _ => "") sampleCatalog [sampleRow2]
    ⟨by decide, by decide⟩ "1" sampleConflict (by decide) (by decide)
  exact ⟨h1, b, hb, hold, hnew⟩

end BookRec
